import Mathlib

/-
  Shallow embedding of the reflectclient repository (Go): the descriptor
  compiler (Client.Init / processStructArg), the request synthesizer
  (buildRequestMeta and its helpers applyPathFields / applyPathIndex /
  applyAdderFields / isEmptyValue), the dispatcher (makeRequestFunc /
  handleResponse and the retry loop over RetryHandler.Retry), and the
  streaming dispatcher (makeWebSocketFunc).  Go byte slices are modelled
  as Option String (none = nil slice), Go maps as association lists, and
  the unspecified enumeration order of a Go map as permutation-equivalence
  of those lists.
-/

namespace ReflectClient

/-- Worker for replaceAll, structurally recursive on a fuel bound so the
kernel can evaluate it.  The fuel is at least the length of the
remaining text at every call, so the fuel-exhausted branch is never
taken from replaceAll. -/
def replaceAllFuel (pat rep : List Char) : Nat → List Char → List Char
  | _, [] => []
  | 0, s => s
  | fuel + 1, c :: rest =>
    match pat with
    | [] => c :: rest
    | p :: ps =>
      if (p :: ps).isPrefixOf (c :: rest) then
        rep ++ replaceAllFuel (p :: ps) rep fuel (rest.drop ps.length)
      else
        c :: replaceAllFuel (p :: ps) rep fuel rest

/-- Model of strings.Replace(s, pat, rep, -1): replace every
non-overlapping occurrence of pat in s, scanning left to right.  All
call sites in the source use non-empty patterns. -/
def replaceAll (pat rep s : List Char) : List Char :=
  replaceAllFuel pat rep s.length s

/-- String-level wrapper for replaceAll. -/
def strReplace (s pat rep : String) : String :=
  ⟨replaceAll pat.data rep.data s.data⟩

/-- Model of a value a role-bearing field can hold (a Go reflect.Value of a
simple kind).  vbytes models a Go byte slice; none is the nil slice.
vinvalid models the invalid reflect.Value (for example the result of
FieldByName on a missing name). -/
inductive FieldVal where
  | vint (n : Int)
  | vstr (s : String)
  | vbytes (b : Option String)
  | vbool (b : Bool)
  | vinvalid
deriving DecidableEq, Repr

/-- Model of a reflect.Value as seen by the synthesizer: either a simple
value or a struct value with named fields.  Arguments are modelled after
pointer dereference (elementValue in the source); a nil pointer argument
dereferences to the invalid value. -/
inductive Value where
  | prim (v : FieldVal)
  | record (fields : List (String × FieldVal))
deriving DecidableEq, Repr

/-- Model of reflect.Value.IsValid. -/
def isValid : Value → Bool
  | .prim .vinvalid => false
  | _ => true

/-- Model of isEmptyValue from the source: switches on the value kind;
kinds outside the switch (notably struct values and the invalid value)
fall through to the final return false. -/
def isEmptyValue : Value → Bool
  | .prim (.vstr s) => s.length = 0
  | .prim (.vbytes b) => (b.getD "").length = 0
  | .prim (.vbool b) => !b
  | .prim (.vint n) => n = 0
  | .prim .vinvalid => false
  | .record _ => false

/-- Model of reflect.Value.FieldByName: a missing name yields the invalid
value. -/
def fieldByName (v : Value) (name : String) : Value :=
  match v with
  | .record fields =>
    match fields.lookup name with
    | some fv => .prim fv
    | none => .prim .vinvalid
  | .prim _ => .prim .vinvalid

/-- UTF-8 bytes of one character (needed to model fmt.Sprint of a byte
slice and url.QueryEscape). -/
def utf8Bytes (c : Char) : List Nat :=
  let n := c.toNat
  if n < 0x80 then [n]
  else if n < 0x800 then
    [0xC0 ||| (n >>> 6), 0x80 ||| (n &&& 0x3F)]
  else if n < 0x10000 then
    [0xE0 ||| (n >>> 12), 0x80 ||| ((n >>> 6) &&& 0x3F), 0x80 ||| (n &&& 0x3F)]
  else
    [0xF0 ||| (n >>> 18), 0x80 ||| ((n >>> 12) &&& 0x3F),
     0x80 ||| ((n >>> 6) &&& 0x3F), 0x80 ||| (n &&& 0x3F)]

/-- Byte sequence of a string under UTF-8. -/
def strBytes (s : String) : List Nat :=
  (s.data.map utf8Bytes).flatten

/-- Model of fmt.Sprint on a simple value.  A Go byte slice prints as the
bracketed, space-separated decimal bytes.  fmt.Sprint of the invalid
value cannot be reached from the flows modelled here (Go would panic in
reflect.Value.Interface first). -/
def sprintField : FieldVal → String
  | .vint n => toString n
  | .vstr s => s
  | .vbool b => if b then "true" else "false"
  | .vbytes none => "[]"
  | .vbytes (some s) => "[" ++ String.intercalate " " ((strBytes s).map toString) ++ "]"
  | .vinvalid => "<invalid Value>"

/-- Model of fmt.Sprint applied to a whole argument value.  Struct values
never reach this function in the modelled flows (only non-struct
arguments are printed, by applyPathIndex). -/
def sprintValue : Value → String
  | .prim v => sprintField v
  | .record _ => ""

/-- Model of extractFieldValue from the source:
fmt.Sprint(value.FieldByName(name).Interface()). -/
def extractFieldValue (value : Value) (name : String) : String :=
  sprintValue (fieldByName value name)

/-- The Arg record of the source: external name plus the omitempty flag. -/
structure Arg where
  Name : String
  OmitEmpty : Bool := false
deriving DecidableEq, Repr

/-- Model of applyPathFields from the source.  The enumeration order of
the Go map nameMap is the order of the association list.  Note that the
omit check applies isEmptyValue to the whole struct value, exactly as
the source does. -/
def applyPathFields (value : Value) (path : String) (nameMap : List (String × Arg)) : String :=
  nameMap.foldl
    (fun p fa =>
      if !(isValid value) || (fa.2.OmitEmpty && isEmptyValue value) then p
      else strReplace p ("\x7b" ++ fa.2.Name ++ "\x7d") (extractFieldValue value fa.1))
    path

/-- Model of applyPathIndex from the source. -/
def applyPathIndex (value : Value) (path : String) (index : Nat) : String :=
  strReplace path ("\x7b" ++ toString index ++ "\x7d") (sprintValue value)

/-- Model of applyAdderFields from the source.  The FieldAdder is an
append-only list of (name, value) pairs; url.Values.Add appends to the
slice held under the key, which this list represents in insertion
order.  (http.Header.Add additionally canonicalises the key; no claim
here depends on canonicalisation, so Add is modelled as a plain
append.) -/
def applyAdderFields (value : Value) (adder : List (String × String))
    (nameMap : List (String × Arg)) : List (String × String) :=
  nameMap.foldl
    (fun ad fa =>
      if !(isValid value) || (fa.2.OmitEmpty && isEmptyValue (fieldByName value fa.1)) then ad
      else ad ++ [(fa.2.Name, extractFieldValue value fa.1)])
    adder

/-- The StructMeta record of the source: role buckets keyed by Go field
name, plus at most one body field.  A bucket list stands for a Go map;
its order is one possible enumeration order of that map. -/
structure StructMeta where
  pathFields : List (String × Arg) := []
  formFields : List (String × Arg) := []
  queryFields : List (String × Arg) := []
  headerFields : List (String × Arg) := []
  bodyField : Option Arg := none
deriving DecidableEq, Repr

/-- Assignment into a Go map keyed by field name: overwrite an existing
key, otherwise append. -/
def mapInsert (k : String) (v : Arg) : List (String × Arg) → List (String × Arg)
  | [] => [(k, v)]
  | (k2, v2) :: rest => if k2 = k then (k, v) :: rest else (k2, v2) :: mapInsert k v rest

/-- One field of a struct argument type, with its tags, as reflect
presents it to processStructArg. -/
structure StructFieldSpec where
  name : String
  isFuncKind : Bool := false
  rc_feature : String := ""
  rc_name : String := ""
  rc_options : String := ""
deriving DecidableEq, Repr

/-- Model of the option-tag scan in processStructArg: strings.Split on
commas, matching the omitempty option. -/
def parseOmitEmpty (optTag : String) : Bool :=
  (optTag.splitOn ",").contains "omitempty"

/-- Recursive worker for processStructArg: one iteration of the field
loop per list element, accumulating the StructMeta.  In the source the
option tag is parsed after the Arg pointer is stored in its bucket; the
stored Arg is mutated in place, so computing OmitEmpty before storing
gives the same final state. -/
def processStructArgAux (acc : StructMeta) : List StructFieldSpec → Except String StructMeta
  | [] => .ok acc
  | f :: rest =>
    if f.isFuncKind then processStructArgAux acc rest
    else if f.rc_feature = "" then processStructArgAux acc rest
    else
      let name := if f.rc_name = "" then f.name else f.rc_name
      let arg : Arg := { Name := name, OmitEmpty := parseOmitEmpty f.rc_options }
      if f.rc_feature = "path" then
        processStructArgAux { acc with pathFields := mapInsert f.name arg acc.pathFields } rest
      else if f.rc_feature = "field" then
        processStructArgAux { acc with formFields := mapInsert f.name arg acc.formFields } rest
      else if f.rc_feature = "query" then
        processStructArgAux { acc with queryFields := mapInsert f.name arg acc.queryFields } rest
      else if f.rc_feature = "header" then
        processStructArgAux { acc with headerFields := mapInsert f.name arg acc.headerFields } rest
      else if f.rc_feature = "body" then
        if acc.bodyField.isSome then .error "Only one body per request is supported."
        else processStructArgAux { acc with bodyField := some arg } rest
      else processStructArgAux acc rest

/-- Model of processStructArg from the source. -/
def processStructArg (fields : List StructFieldSpec) : Except String StructMeta :=
  processStructArgAux {} fields

/-- The RequestMeta record of the source.  body is a Go byte slice
(none = nil); query, fields and headers are url.Values / http.Header
pair collections in insertion order. -/
structure RequestMeta where
  path : String := ""
  method : String := ""
  query : List (String × String) := []
  fields : List (String × String) := []
  headers : List (String × String) := []
  body : Option String := none
deriving DecidableEq, Repr

/-- The MethodArg record of the source. -/
structure MethodArg where
  isStruct : Bool := false
  structMeta : Option StructMeta := none
deriving DecidableEq, Repr

/-- Return types the claims distinguish: the websocket connection type,
a byte slice, the empty interface, and anything else. -/
inductive RType where
  | wsConn
  | byteSlice
  | ifaceT
  | errorT
  | userT (n : String)
deriving DecidableEq, Repr

/-- The MethodMeta record of the source. -/
structure MethodMeta where
  returnType : RType := .ifaceT
  methodArgs : List MethodArg := []
  hasBody : Bool := false
  webSocket : Bool := false
  path : String := ""
  method : String := ""
  origin : String := ""
deriving DecidableEq, Repr

/-- Model of MethodMeta.hasFields from the source. -/
def MethodMeta.hasFields (m : MethodMeta) : Bool :=
  m.methodArgs.any fun arg =>
    arg.isStruct &&
      (match arg.structMeta with
       | some sm => !sm.formFields.isEmpty
       | none => false)

/-- Go url.QueryEscape on one character: alphanumerics and dash,
underscore, dot, tilde stay; space becomes a plus; everything else is
percent-encoded byte-wise with uppercase hex. -/
def hexDigit (n : Nat) : Char :=
  if n < 10 then Char.ofNat (48 + n) else Char.ofNat (55 + n)

/-- Percent-encoding of one byte. -/
def percentByte (b : Nat) : List Char :=
  ['%', hexDigit (b / 16), hexDigit (b % 16)]

/-- Model of url.QueryEscape. -/
def queryEscape (s : String) : String :=
  ⟨(s.data.map fun c =>
      if c.isAlphanum || c = '-' || c = '_' || c = '.' || c = '~' then [c]
      else if c = ' ' then ['+']
      else (utf8Bytes c).map percentByte |>.flatten).flatten⟩

/-- Stable insertion of a pair into a list sorted by key (equal keys keep
insertion order). -/
def insertByKey (p : String × String) : List (String × String) → List (String × String)
  | [] => [p]
  | q :: rest => if q.1 ≤ p.1 then q :: insertByKey p rest else p :: q :: rest

/-- Stable sort of pairs by key. -/
def sortByKey (l : List (String × String)) : List (String × String) :=
  l.foldl (fun acc p => insertByKey p acc) []

/-- Model of url.Values.Encode: keys in sorted order, the values of one
key in insertion order, each pair escaped and joined with ampersands. -/
def valuesEncode (pairs : List (String × String)) : String :=
  String.intercalate "&"
    ((sortByKey pairs).map fun p => queryEscape p.1 ++ "=" ++ queryEscape p.2)

/-- Model of elementValue at call time: arguments are stored already
dereferenced, so this is the identity. -/
def elementValue (v : Value) : Value := v

/-- One iteration of the argument loop of buildRequestMeta. -/
def buildArgsStep (rm : RequestMeta) (argIdx : Nat) (marg : MethodArg) (arg : Value) : RequestMeta :=
  if !marg.isStruct then
    { rm with path := applyPathIndex arg rm.path argIdx }
  else
    match marg.structMeta with
    | none => rm
    | some sm =>
      let argValue := elementValue arg
      let path2 := applyPathFields argValue rm.path sm.pathFields
      let query2 := applyAdderFields argValue rm.query sm.queryFields
      let fields2 := applyAdderFields argValue rm.fields sm.formFields
      let headers2 := applyAdderFields argValue rm.headers sm.headerFields
      let body2 :=
        match sm.bodyField with
        | none => rm.body
        | some bf =>
          let val := fieldByName argValue bf.Name
          if isValid val && !(bf.OmitEmpty && isEmptyValue val) then
            match val with
            | .prim (.vbytes b) => b
            | _ => rm.body
          else rm.body
      { rm with path := path2, query := query2, fields := fields2,
                headers := headers2, body := body2 }

/-- The argument loop of buildRequestMeta, walking arguments with their
indices against the compiled MethodArg list.  At call time the argument
count always equals the compiled parameter count, so the out-of-range
default (Go would panic on the index) is unreachable. -/
def buildArgsLoop (margs : List MethodArg) (rm : RequestMeta) (argIdx : Nat) :
    List Value → RequestMeta
  | [] => rm
  | arg :: rest =>
    let marg := margs.getD argIdx {}
    buildArgsLoop margs (buildArgsStep rm argIdx marg arg) (argIdx + 1) rest

/-- The state of the RequestMeta after the argument loop of
buildRequestMeta, before the form-field and body reconciliation. -/
def buildArgsState (meta : MethodMeta) (args : List Value) : RequestMeta :=
  buildArgsLoop meta.methodArgs
    { path := meta.path, method := meta.method } 0 args

/-- Model of buildRequestMeta from the source: walk the arguments, then
reconcile collected form fields with an explicit body. -/
def buildRequestMeta (meta : MethodMeta) (args : List Value) : Except String RequestMeta :=
  let rm := buildArgsState meta args
  if rm.fields.isEmpty then .ok rm
  else if rm.body.isSome then .error "Body and fields are incompatible."
  else .ok { rm with body := some (valuesEncode rm.fields) }

/-- The supported verb list of the source (var HttpMethods). -/
def HttpMethods : List String := ["GET", "POST", "PUT", "DELETE"]

/-- Model of the helper func in(needle, haystack) from the source. -/
def inGo (needle : String) (haystack : List String) : Bool :=
  haystack.contains needle

/-- Declared parameter type of a stub: a non-struct kind, or a struct
kind (after elementType dereference) with its field list. -/
inductive ArgTypeSpec where
  | scalarT
  | structT (fields : List StructFieldSpec)
deriving DecidableEq, Repr

/-- Declared function type of a stub field: parameter types and result
types. -/
structure FuncType where
  args : List ArgTypeSpec := []
  outs : List RType := []
deriving DecidableEq, Repr

/-- The tag bundle of one service field. -/
structure FieldTag where
  rc_method : String := ""
  rc_path : String := ""
  rc_origin : String := ""
deriving DecidableEq, Repr

/-- One field of the service record: either not a function (carrying its
untouched content) or a function field whose slot holds the bound
MethodMeta once Init has set it. -/
inductive ServiceField where
  | nonFuncField (name : String) (content : String)
  | funcField (typ : FuncType) (tag : FieldTag) (slot : Option MethodMeta)
deriving DecidableEq, Repr

/-- The argument loop of Init: classify each parameter, run
processStructArg on struct parameters, and track the single allowed
body field across all parameters. -/
def processArgs (hasBody : Bool) : List ArgTypeSpec → Except String (List MethodArg × Bool)
  | [] => .ok ([], hasBody)
  | .scalarT :: rest =>
    (processArgs hasBody rest).map fun lb => ({ isStruct := false } :: lb.1, lb.2)
  | .structT fields :: rest =>
    match processStructArg fields with
    | .error e => .error e
    | .ok sm =>
      if sm.bodyField.isSome then
        if hasBody then .error "Only one body per request is supported."
        else
          (processArgs true rest).map fun lb =>
            ({ isStruct := true, structMeta := some sm } :: lb.1, lb.2)
      else
        (processArgs hasBody rest).map fun lb =>
          ({ isStruct := true, structMeta := some sm } :: lb.1, lb.2)

/-- The per-field body of the Init loop: non-function fields are skipped
untouched; function fields are validated in source order (result count,
websocket classification, error result, verb, parameters, body versus
form fields) and, on success, rebound with their compiled MethodMeta. -/
def processField : ServiceField → Except String ServiceField
  | .nonFuncField n c => .ok (.nonFuncField n c)
  | .funcField typ tag _ =>
    if typ.outs.length ≠ 2 then .error "Functions must return two values"
    else
      let returnType := typ.outs.getD 0 .errorT
      let webSocket := returnType == RType.wsConn
      let origin := if webSocket then tag.rc_origin else ""
      if typ.outs.getD 1 .errorT ≠ .errorT then .error "Second return value must be an error."
      else
        let method := tag.rc_method
        if !(inGo method HttpMethods) then .error ("Unsupported method: " ++ method)
        else
          match processArgs false typ.args with
          | .error e => .error e
          | .ok lb =>
            let meta : MethodMeta :=
              { returnType := returnType, methodArgs := lb.1, hasBody := lb.2,
                webSocket := webSocket, path := tag.rc_path, method := method,
                origin := origin }
            if meta.hasBody && meta.hasFields then
              .error "Requests cannot have form fields and an explicit body."
            else .ok (.funcField typ tag (some meta))

/-- Model of Client.Init: fields are processed left to right; each
successfully processed function field is rebound (Set) before the next
field is examined, and the first error aborts the loop, leaving the
failing field and everything after it untouched. -/
def initGo : List ServiceField → List ServiceField × Option String
  | [] => ([], none)
  | f :: rest =>
    match processField f with
    | .error e => (f :: rest, some e)
    | .ok f2 =>
      let r := initGo rest
      (f2 :: r.1, r.2)

/-- The BasicRetryHandler record of the source. -/
structure BasicRetryHandler where
  maxRetries : Int
  retryCount : Int
deriving DecidableEq, Repr

/-- Model of NewBasicRetryHandler. -/
def NewBasicRetryHandler (maxRetries : Int) : BasicRetryHandler :=
  { maxRetries := maxRetries, retryCount := 0 }

/-- Model of BasicRetryHandler.Retry: returns nil while retryCount is
below maxRetries, otherwise the error.  The method writes no field, so
the handler state is returned unchanged, exactly as the source. -/
def BasicRetryHandler.Retry (h : BasicRetryHandler) (err : String) :
    Option String × BasicRetryHandler :=
  if h.retryCount < h.maxRetries then (none, h) else (some err, h)

/-- Decidable equality for Except, needed to evaluate models whose
results are Except values. -/
instance instDecEqExcept {ε α : Type} [DecidableEq ε] [DecidableEq α] :
    DecidableEq (Except ε α)
  | .ok a, .ok b =>
    match decEq a b with
    | isTrue h => isTrue (by rw [h])
    | isFalse h => isFalse (fun hh => h (by cases hh; rfl))
  | .ok _, .error _ => isFalse (fun hh => by cases hh)
  | .error _, .ok _ => isFalse (fun hh => by cases hh)
  | .error e, .error f =>
    match decEq e f with
    | isTrue h => isTrue (by rw [h])
    | isFalse h => isFalse (fun hh => h (by cases hh; rfl))

/-- An HTTP response as handleResponse consumes it: the outcome of
ioutil.ReadAll on its body. -/
structure HttpResponse where
  bodyRead : Except String String
deriving DecidableEq, Repr

/-- The first result value of a stub call: the zero value of the declared
payload type, the raw body bytes (no unmarshaler), a decoded value, or a
websocket connection handle. -/
inductive RVal where
  | zeroOf (t : RType)
  | raw (b : String)
  | decoded (v : FieldVal)
  | conn
deriving DecidableEq, Repr

/-- The two-valued result of a stub call. -/
structure CallResult where
  payload : RVal
  failure : Option String
deriving DecidableEq, Repr

/-- Model of Client.handleResponse: start from (zero value, nil error);
a non-nil error wins, otherwise read the body, then either return the
raw bytes (no unmarshaler) or unmarshal into a fresh instance. -/
def handleResponse (um : Option (String → Except String FieldVal)) (meta : MethodMeta)
    (resp : Option HttpResponse) (err : Option String) : CallResult :=
  let z : CallResult := { payload := .zeroOf meta.returnType, failure := none }
  match err with
  | some e => { z with failure := some e }
  | none =>
    match resp with
    | none => z
    | some r =>
      match r.bodyRead with
      | .error e => { z with failure := some e }
      | .ok body =>
        match um with
        | none => { z with payload := .raw body }
        | some u =>
          match u body with
          | .error e => { z with failure := some e }
          | .ok v => { z with payload := .decoded v }

/-- The send-and-retry loop of makeRequestFunc.  transport gives the
outcome of client.Do for each attempt index; the loop runs until the
attempt succeeds, the retry handler surfaces the failure, or there is no
handler.  fuel bounds the number of iterations modelled: none means the
loop was still running after fuel attempts.  The result carries the
number of transport attempts made. -/
def requestLoop (um : Option (String → Except String FieldVal)) (meta : MethodMeta)
    (transport : Nat → Except String HttpResponse) (h : Option BasicRetryHandler) :
    Nat → Nat → Option (CallResult × Nat)
  | 0, _ => none
  | fuel + 1, attempt =>
    match transport attempt with
    | .ok resp => some (handleResponse um meta (some resp) none, attempt + 1)
    | .error e =>
      match h with
      | none => some (handleResponse um meta none (some e), attempt + 1)
      | some hh =>
        match hh.Retry e with
        | (none, hh2) => requestLoop um meta transport (some hh2) fuel (attempt + 1)
        | (some e2, _) => some (handleResponse um meta none (some e2), attempt + 1)

/-- Observable outcome of one standard stub call: a two-valued result
with the number of transport attempts made, or a runtime panic. -/
inductive DispatchOutcome where
  | result (r : CallResult) (attempts : Nat)
  | panicked (msg : String)
deriving DecidableEq, Repr

/-- Model of the function body built by makeRequestFunc.  newRequestCheck
is the outcome of http.NewRequest for the given verb and URL.  When
NewRequest fails the source calls c.handleResponse and discards the
result instead of returning it, then dereferences the nil request at
req.URL.Query(), which is a runtime panic.  The additive merge of query
pairs and headers into the outbound request and the transformer chain
are absorbed into the abstract transport, which no claim inspects. -/
def makeRequestFuncModel (um : Option (String → Except String FieldVal)) (baseUrl : String)
    (meta : MethodMeta) (args : List Value)
    (newRequestCheck : String → String → Except String Unit)
    (transport : Nat → Except String HttpResponse) (h : Option BasicRetryHandler)
    (fuel : Nat) : Option DispatchOutcome :=
  match buildRequestMeta meta args with
  | .error e => some (.result (handleResponse um meta none (some e)) 0)
  | .ok rm =>
    match newRequestCheck rm.method (baseUrl ++ rm.path) with
    | .error _ =>
      some (.panicked "runtime error: invalid memory address or nil pointer dereference")
    | .ok _ =>
      (requestLoop um meta transport h fuel 0).map fun p => .result p.1 p.2

/-- Observable outcome of one streaming stub call. -/
inductive WsOutcome where
  | result (r : CallResult)
  | panicked (msg : String)
deriving DecidableEq, Repr

/-- Model of the function body built by makeWebSocketFunc.  The error of
buildRequestMeta is discarded; when synthesis failed the RequestMeta is
nil and the immediately following read of rm.path dereferences it, which
is a runtime panic.  newConfig is the outcome of websocket.NewConfig and
dialResult the outcome of websocket.DialConfig. -/
def makeWebSocketFuncModel (baseUrl : String) (meta : MethodMeta) (args : List Value)
    (newConfig : String → String → Except String Unit)
    (dialResult : Except String Unit) : WsOutcome :=
  match buildRequestMeta meta args with
  | .error _ =>
    .panicked "runtime error: invalid memory address or nil pointer dereference"
  | .ok rm =>
    let z : CallResult := { payload := .zeroOf meta.returnType, failure := none }
    match newConfig (baseUrl ++ rm.path) meta.origin with
    | .error e => .result { z with failure := some e }
    | .ok _ =>
      match dialResult with
      | .error e => .result { z with failure := some e }
      | .ok _ => .result { z with payload := .conn }

/-- Two StructMetas describe the same compiled role maps when their
buckets are permutations of each other (a Go map does not specify an
enumeration order) and their body fields agree. -/
def StructMeta.mapEquiv (a b : StructMeta) : Prop :=
  a.pathFields.Perm b.pathFields ∧ a.formFields.Perm b.formFields ∧
  a.queryFields.Perm b.queryFields ∧ a.headerFields.Perm b.headerFields ∧
  a.bodyField = b.bodyField

/-- Equivalence of compiled argument descriptors up to map enumeration
order. -/
def MethodArg.equiv (a b : MethodArg) : Prop :=
  a.isStruct = b.isStruct ∧
  (match a.structMeta, b.structMeta with
   | none, none => True
   | some x, some y => x.mapEquiv y
   | _, _ => False)

/-- Equivalence of compiled method descriptors up to map enumeration
order: two observations of the same Go MethodMeta. -/
def MethodMeta.equiv (a b : MethodMeta) : Prop :=
  a.returnType = b.returnType ∧ a.hasBody = b.hasBody ∧ a.webSocket = b.webSocket ∧
  a.path = b.path ∧ a.method = b.method ∧ a.origin = b.origin ∧
  List.Forall₂ MethodArg.equiv a.methodArgs b.methodArgs

/-- Every role bucket of this role map holds at most one field. -/
def smallStructMeta (sm : StructMeta) : Prop :=
  sm.pathFields.length ≤ 1 ∧ sm.formFields.length ≤ 1 ∧
  sm.queryFields.length ≤ 1 ∧ sm.headerFields.length ≤ 1

/-- Every role bucket of every structured parameter holds at most one
field. -/
def smallRoleMaps (m : MethodMeta) : Prop :=
  ∀ arg ∈ m.methodArgs,
    match arg.structMeta with
    | none => True
    | some sm => smallStructMeta sm

/-- Number of body-role fields the Role Extractor sees in one record:
non-function fields tagged with the body feature. -/
def bodyFeatureCount : List StructFieldSpec → Nat
  | [] => 0
  | f :: rest =>
    (if f.isFuncKind then 0 else if f.rc_feature = "body" then 1 else 0) +
      bodyFeatureCount rest

/-- Number of body-role fields across all parameters of one stub. -/
def argsBodyCount (args : List ArgTypeSpec) : Nat :=
  (args.map fun a =>
    match a with
    | .scalarT => 0
    | .structT fs => bodyFeatureCount fs).sum

/-- The effect of one successful Init iteration on a field (the field
with its slot bound); a failing field is returned unchanged. -/
def bindField (f : ServiceField) : ServiceField :=
  match processField f with
  | .ok f2 => f2
  | .error _ => f

/-- Service record of the counterexample to all-or-nothing compilation:
a valid stub followed by a stub with an unsupported verb. -/
def c2Service : List ServiceField :=
  [.funcField { args := [], outs := [.ifaceT, .errorT] }
      { rc_method := "GET", rc_path := "/a" } none,
   .funcField { args := [], outs := [.ifaceT, .errorT] }
      { rc_method := "BOGUS" } none]

/-- A formFields bucket observed in declaration order: two fields that
share the external name id. -/
def c5Order1 : List (String × Arg) := [("F1", { Name := "id" }), ("F2", { Name := "id" })]

/-- The same bucket observed in the opposite enumeration order. -/
def c5Order2 : List (String × Arg) := [("F2", { Name := "id" }), ("F1", { Name := "id" })]

/-- Descriptor built over a given enumeration order of the form-field
bucket. -/
def c5MetaOf (order : List (String × Arg)) : MethodMeta :=
  { method := "POST", path := "/x",
    methodArgs := [{ isStruct := true, structMeta := some { formFields := order } }] }

/-- Call arguments for the determinism counterexample. -/
def c5Args : List Value := [.record [("F1", .vstr "1"), ("F2", .vstr "2")]]

/-- Descriptor whose arguments produce both form-field pairs and an
explicit body. -/
def conflictMeta : MethodMeta :=
  { method := "POST", path := "/c",
    methodArgs :=
      [{ isStruct := true, structMeta := some { formFields := [("F", { Name := "field" })] } },
       { isStruct := true, structMeta := some { bodyField := some { Name := "Body" } } }] }

/-- Arguments that trigger the call-time body and form-field conflict. -/
def conflictArgs : List Value :=
  [.record [("F", .vstr "v")], .record [("Body", .vbytes (some "b"))]]

/-- Descriptor with form fields only. -/
def formOnlyMeta : MethodMeta :=
  { method := "POST", path := "/c",
    methodArgs :=
      [{ isStruct := true, structMeta := some { formFields := [("F", { Name := "field" })] } }] }

/-- Arguments for the form-field-only call. -/
def formOnlyArgs : List Value := [.record [("F", .vstr "v")]]

/-- The service record of TestNonFunctionField: a non-function field Id
followed by a valid stub Call. -/
def testNonFunctionService : List ServiceField :=
  [.nonFuncField "Id" "0",
   .funcField { args := [], outs := [.ifaceT, .errorT] }
      { rc_method := "GET", rc_path := "/test" } none]

/-- The record TestNonFunctionField ends with: Id untouched, Call bound. -/
def testNonFunctionServiceBound : List ServiceField :=
  [.nonFuncField "Id" "0",
   .funcField { args := [], outs := [.ifaceT, .errorT] }
      { rc_method := "GET", rc_path := "/test" }
      (some { returnType := .ifaceT, methodArgs := [], path := "/test", method := "GET" })]

/-- Stub declaration with one record parameter that carries two
body-role fields (TestMultipleBodySameArg). -/
def twoBodyOneArg : FuncType :=
  { args := [.structT [{ name := "Body", rc_feature := "body" },
                       { name := "Body1", rc_feature := "body" }]],
    outs := [.byteSlice, .errorT] }

/-- Stub declaration with two record parameters of one body-role field
each (TestMultipleBodyDiffArgs). -/
def twoBodyTwoArgs : FuncType :=
  { args := [.structT [{ name := "Body", rc_feature := "body" }],
             .structT [{ name := "Body", rc_feature := "body" }]],
    outs := [.byteSlice, .errorT] }

/-- Minimal descriptor for the dispatcher panic evaluation. -/
def c3Meta : MethodMeta := { returnType := .ifaceT, method := "GET", path := "/test" }

/-- C8: path resolution.  The template /pre/{id}/post with a path-role
field named id holding 1234 resolves to /pre/1234/post, and the template
/{0}/{2}/{1} with scalar arguments a, b, c in call order resolves each
positional placeholder from the argument at that ordinal, giving
/a/c/b. -/
theorem claim_C8_path_resolution :
    buildRequestMeta
      { path := "/pre/{id}/post", method := "GET",
        methodArgs := [{ isStruct := true,
                         structMeta := some { pathFields := [("Id", { Name := "id" })] } }] }
      [.record [("Id", .vint 1234)]]
      = .ok { path := "/pre/1234/post", method := "GET" } ∧
    buildRequestMeta
      { path := "/{0}/{2}/{1}", method := "GET", methodArgs := [{}, {}, {}] }
      [.prim (.vstr "a"), .prim (.vstr "b"), .prim (.vstr "c")]
      = .ok { path := "/a/c/b", method := "GET" } :=
  ⟨by decide, by decide⟩

/-- C4: evaluation of the code at the failing input.  A path-role field
marked omitempty whose value is the zero value is still substituted into
the template, because applyPathFields applies isEmptyValue to the whole
struct value instead of the field; the identical configuration in an
adder role (query, header, form field) is correctly excluded, because
applyAdderFields tests the field value. -/
theorem claim_C4_omitempty_path_not_skipped :
    applyPathFields (.record [("Id", .vint 0)]) "/pre/{id}/post"
      [("Id", { Name := "id", OmitEmpty := true })] = "/pre/0/post" ∧
    applyAdderFields (.record [("Id", .vint 0)]) []
      [("Id", { Name := "id", OmitEmpty := true })] = [] ∧
    buildRequestMeta
      { path := "/pre/{id}/post", method := "GET",
        methodArgs := [{ isStruct := true,
                         structMeta := some
                           { pathFields := [("Id", { Name := "id", OmitEmpty := true })] } }] }
      [.record [("Id", .vint 0)]]
      = .ok { path := "/pre/0/post", method := "GET" } :=
  ⟨by decide, by decide, by decide⟩

/-- C3: evaluation of the code at the failing input.  When
http.NewRequest rejects the URL, makeRequestFunc calls handleResponse
but discards its result instead of returning it, then dereferences the
nil request, so the request-build failure escapes as a runtime panic
rather than through the failure slot; the discarded handleResponse value
is exactly the well-formed two-valued result the claim expects. -/
theorem claim_C3_newrequest_failure_panics :
    makeRequestFuncModel none "http://bad\x7fhost" c3Meta []
      (fun _ _ => .error "parse URL: net/url: invalid control character in URL")
      (fun _ => .error "unused") none 1
      = some (.panicked "runtime error: invalid memory address or nil pointer dereference") ∧
    handleResponse none c3Meta none
      (some "parse URL: net/url: invalid control character in URL")
      = { payload := .zeroOf .ifaceT,
          failure := some "parse URL: net/url: invalid control character in URL" } :=
  ⟨by decide, by decide⟩

/-- C1: with any positive retry budget and a transport that fails on
every attempt, the dispatch loop never finishes: BasicRetryHandler.Retry
never increments retryCount, so it clears every failure and the request
is resent forever, never reaching the N+1 attempts after which the claim
says the failure is surfaced. -/
theorem claim_C1_retry_never_surfaces (N : Int) (hN : 0 < N) (e : String)
    (um : Option (String → Except String FieldVal)) (meta : MethodMeta) :
    ∀ fuel attempt,
      requestLoop um meta (fun _ => .error e) (some (NewBasicRetryHandler N)) fuel attempt
        = none := by
  intro fuel
  induction fuel with
  | zero => intro attempt; rfl
  | succ n ih =>
    intro attempt
    have hr : (NewBasicRetryHandler N).Retry e = (none, NewBasicRetryHandler N) := by
      simp [BasicRetryHandler.Retry, NewBasicRetryHandler, hN]
    simpa [requestLoop, hr] using ih (attempt + 1)

/-- C1 witness: with a budget of one retry, five consecutive transport
failures leave the loop still running. -/
theorem claim_C1_retry_never_surfaces_witness :
    requestLoop none {} (fun _ => .error "transport failure")
      (some (NewBasicRetryHandler 1)) 5 0 = none :=
  claim_C1_retry_never_surfaces 1 (by decide) "transport failure" none {} 5 0

/-- C2 counterexample: Init on a record whose second stub has an
unsupported verb returns an error, yet the first stub is already bound,
so the record differs from its pre-Init state. -/
theorem claim_C2_not_atomic_counterexample :
    (initGo c2Service).2 = some "Unsupported method: BOGUS" ∧
    (initGo c2Service).1 ≠ c2Service :=
  ⟨by decide, by decide⟩

/-- C2 (amended): the first error aborts the Init loop and is returned;
the failing field and every field after it are unchanged, while every
field before it has already been rebound with its compiled invoker. -/
theorem claim_C2_first_error_aborts (l : List ServiceField) (e : String)
    (h : (initGo l).2 = some e) :
    ∃ pre f post, l = pre ++ f :: post ∧
      (initGo l).1 = pre.map bindField ++ f :: post ∧
      processField f = .error e ∧
      ∀ g ∈ pre, (processField g).isOk = true := by
  induction l with
  | nil => simp [initGo] at h
  | cons f rest ih =>
    cases hpf : processField f with
    | error e0 =>
      have h2 : initGo (f :: rest) = (f :: rest, some e0) := by simp [initGo, hpf]
      have he : e0 = e := by rw [h2] at h; exact Option.some_inj.mp h
      subst he
      exact ⟨[], f, rest, rfl, by simp [h2], hpf, by intro g hg; cases hg⟩
    | ok f2 =>
      have h2 : initGo (f :: rest) = (f2 :: (initGo rest).1, (initGo rest).2) := by
        simp [initGo, hpf]
      have hr : (initGo rest).2 = some e := by rw [h2] at h; exact h
      obtain ⟨pre, f0, post, hl, hout, hpf0, hok⟩ := ih hr
      refine ⟨f :: pre, f0, post, by simp [hl], ?_, hpf0, ?_⟩
      · rw [h2, hout]
        simp [bindField, hpf]
      · intro g hg
        rcases List.mem_cons.mp hg with hg | hg
        · subst hg; simp [Except.isOk, Except.toBool, hpf]
        · exact hok g hg

/-- C2 amended witness: the counterexample service decomposes as one
successfully rebound stub followed by the failing stub. -/
theorem claim_C2_first_error_aborts_witness :
    ∃ pre f post, c2Service = pre ++ f :: post ∧
      (initGo c2Service).1 = pre.map bindField ++ f :: post ∧
      processField f = .error "Unsupported method: BOGUS" ∧
      ∀ g ∈ pre, (processField g).isOk = true :=
  claim_C2_first_error_aborts c2Service "Unsupported method: BOGUS" (by decide)

/-- C5 counterexample: two observations of one descriptor whose
form-field bucket holds two fields with the same external name (the
bucket lists are permutations of each other, as Go map enumeration
permits) yield different synthesized requests: the form pairs, and hence
the encoded body bytes, come out in different orders. -/
theorem claim_C5_not_deterministic_counterexample :
    MethodMeta.equiv (c5MetaOf c5Order1) (c5MetaOf c5Order2) ∧
    buildRequestMeta (c5MetaOf c5Order1) c5Args ≠ buildRequestMeta (c5MetaOf c5Order2) c5Args := by
  constructor
  · refine ⟨rfl, rfl, rfl, rfl, rfl, rfl, ?_⟩
    refine List.Forall₂.cons ⟨rfl, ?_⟩ List.Forall₂.nil
    refine ⟨List.Perm.refl _, ?_, List.Perm.refl _, List.Perm.refl _, rfl⟩
    exact List.Perm.swap _ _ _
  · decide

/-- Permutations of lists with at most one element are equalities. -/
theorem perm_eq_of_length_le_one {α : Type} {l1 l2 : List α}
    (h : l1.Perm l2) (hl : l1.length ≤ 1) : l1 = l2 := by
  cases l1 with
  | nil => exact h.nil_eq
  | cons a t =>
    cases t with
    | nil => exact List.singleton_perm.mp h
    | cons b t2 => simp [List.length_cons] at hl

/-- Map-equivalent role maps with at most one field per bucket are
equal. -/
theorem structMeta_eq_of_mapEquiv_small {a b : StructMeta} (h : a.mapEquiv b)
    (hs : smallStructMeta a) : a = b := by
  obtain ⟨hp, hf, hq, hh, hb⟩ := h
  obtain ⟨h1, h2, h3, h4⟩ := hs
  cases a with
  | mk ap af aq ah ab =>
    cases b with
    | mk bp bf bq bh bb =>
      simp only [StructMeta.mk.injEq]
      exact ⟨perm_eq_of_length_le_one hp h1, perm_eq_of_length_le_one hf h2,
             perm_eq_of_length_le_one hq h3, perm_eq_of_length_le_one hh h4, hb⟩

/-- Equivalent argument descriptors with small role maps are equal. -/
theorem methodArg_eq_of_equiv_small {a b : MethodArg} (h : MethodArg.equiv a b)
    (hs : match a.structMeta with
          | none => True
          | some sm => smallStructMeta sm) : a = b := by
  obtain ⟨hi, hm⟩ := h
  cases a with
  | mk ai asm =>
    cases b with
    | mk bi bsm =>
      simp only [MethodArg.mk.injEq]
      refine ⟨hi, ?_⟩
      cases asm with
      | none =>
        cases bsm with
        | none => rfl
        | some y => exact absurd hm (by simp [MethodArg.equiv])
      | some x =>
        cases bsm with
        | none => exact absurd hm (by simp [MethodArg.equiv])
        | some y =>
          have hxy : x.mapEquiv y := hm
          exact congrArg some (structMeta_eq_of_mapEquiv_small hxy hs)

/-- Pointwise equivalent argument lists with small role maps are
equal. -/
theorem methodArgs_eq_of_equiv_small :
    ∀ {l1 l2 : List MethodArg}, List.Forall₂ MethodArg.equiv l1 l2 →
      (∀ arg ∈ l1,
        match arg.structMeta with
        | none => True
        | some sm => smallStructMeta sm) →
      l1 = l2 := by
  intro l1 l2 h
  induction h with
  | nil => intro _; rfl
  | cons ha ht ih =>
    intro hs
    have hhead := methodArg_eq_of_equiv_small ha (hs _ (List.mem_cons_self _ _))
    have htail := ih (fun arg hm => hs arg (List.mem_cons_of_mem _ hm))
    rw [hhead, htail]

/-- Equivalent descriptors with small role maps are equal. -/
theorem methodMeta_eq_of_equiv_small {m1 m2 : MethodMeta}
    (h : MethodMeta.equiv m1 m2) (hs : smallRoleMaps m1) : m1 = m2 := by
  obtain ⟨h1, h2, h3, h4, h5, h6, h7⟩ := h
  cases m1 with
  | mk r1 a1 b1 w1 p1 me1 o1 =>
    cases m2 with
    | mk r2 a2 b2 w2 p2 me2 o2 =>
      simp only [MethodMeta.mk.injEq]
      exact ⟨h1, methodArgs_eq_of_equiv_small h7 hs, h2, h3, h4, h5, h6⟩

/-- C5 (amended): request synthesis is a function of the enumeration
order in which the role maps are observed.  When every role bucket of
every structured parameter holds at most one field, any two observations
of the descriptor synthesize the same request; with several same-role
fields (such as duplicate external names), different enumeration orders
can produce differently ordered pairs and bodies. -/
theorem claim_C5_deterministic_small_maps (m1 m2 : MethodMeta) (args : List Value)
    (h : MethodMeta.equiv m1 m2) (hs : smallRoleMaps m1) :
    buildRequestMeta m1 args = buildRequestMeta m2 args := by
  rw [methodMeta_eq_of_equiv_small h hs]

/-- C5 amended witness: a single-field form bucket synthesizes
identically under any observation. -/
theorem claim_C5_deterministic_small_maps_witness :
    MethodMeta.equiv formOnlyMeta formOnlyMeta ∧ smallRoleMaps formOnlyMeta ∧
    buildRequestMeta formOnlyMeta formOnlyArgs = buildRequestMeta formOnlyMeta formOnlyArgs := by
  have he : MethodMeta.equiv formOnlyMeta formOnlyMeta := by
    refine ⟨rfl, rfl, rfl, rfl, rfl, rfl, ?_⟩
    exact List.Forall₂.cons ⟨rfl, List.Perm.refl _, List.Perm.refl _, List.Perm.refl _,
      List.Perm.refl _, rfl⟩ List.Forall₂.nil
  have hsm : smallRoleMaps formOnlyMeta := by
    intro arg harg
    simp only [formOnlyMeta] at harg
    simp only [List.mem_singleton] at harg
    subst harg
    exact ⟨by decide, by decide, by decide, by decide⟩
  exact ⟨he, hsm, claim_C5_deterministic_small_maps formOnlyMeta formOnlyMeta formOnlyArgs he hsm⟩

/-- C6: when the argument walk has collected at least one form-field
pair and a body was produced, synthesis fails with the body and
form-field conflict error and the dispatcher returns that failure
through the failure slot after zero transport attempts; when form pairs
were collected and no body was produced, the URL-encoded pairs become
the request body. -/
theorem claim_C6_body_form_conflict (meta : MethodMeta) (args : List Value) :
    ((buildArgsState meta args).fields ≠ [] → ((buildArgsState meta args).body).isSome = true →
      buildRequestMeta meta args = .error "Body and fields are incompatible." ∧
      ∀ um baseUrl nrc transport h fuel,
        makeRequestFuncModel um baseUrl meta args nrc transport h fuel =
          some (.result (handleResponse um meta none (some "Body and fields are incompatible.")) 0)) ∧
    ((buildArgsState meta args).fields ≠ [] → (buildArgsState meta args).body = none →
      buildRequestMeta meta args =
        .ok { buildArgsState meta args with
              body := some (valuesEncode (buildArgsState meta args).fields) }) := by
  constructor
  · intro hf hb
    have herr : buildRequestMeta meta args = .error "Body and fields are incompatible." := by
      unfold buildRequestMeta
      simp [List.isEmpty_iff, hf, hb]
    refine ⟨herr, ?_⟩
    intro um baseUrl nrc transport h fuel
    simp [makeRequestFuncModel, herr]
  · intro hf hb
    unfold buildRequestMeta
    simp [List.isEmpty_iff, hf, hb]

/-- C6 witness: concrete arguments with one form pair and a body fail
with the conflict error and make zero transport attempts; the same form
pair without a body is URL-encoded into the body. -/
theorem claim_C6_body_form_conflict_witness :
    buildRequestMeta conflictMeta conflictArgs = .error "Body and fields are incompatible." ∧
    makeRequestFuncModel none "" conflictMeta conflictArgs (fun _ _ => .ok ())
      (fun _ => .error "t") none 3 =
      some (.result (handleResponse none conflictMeta none
        (some "Body and fields are incompatible.")) 0) ∧
    buildRequestMeta formOnlyMeta formOnlyArgs =
      .ok { buildArgsState formOnlyMeta formOnlyArgs with
            body := some (valuesEncode (buildArgsState formOnlyMeta formOnlyArgs).fields) } := by
  refine ⟨((claim_C6_body_form_conflict conflictMeta conflictArgs).1 (by decide) (by decide)).1,
          ((claim_C6_body_form_conflict conflictMeta conflictArgs).1 (by decide) (by decide)).2
            none "" (fun _ _ => .ok ()) (fun _ => .error "t") none 3,
          (claim_C6_body_form_conflict formOnlyMeta formOnlyArgs).2 (by decide) (by decide)⟩

/-- C9: any error of request synthesis is discarded by the streaming
dispatcher; the call then reads the path of the absent RequestMeta,
which panics instead of producing the two-valued result. -/
theorem claim_C9_ws_discards_build_error (baseUrl : String) (meta : MethodMeta)
    (args : List Value) (nc : String → String → Except String Unit)
    (dial : Except String Unit) (e : String)
    (h : buildRequestMeta meta args = .error e) :
    makeWebSocketFuncModel baseUrl meta args nc dial =
      .panicked "runtime error: invalid memory address or nil pointer dereference" ∧
    ∀ r, makeWebSocketFuncModel baseUrl meta args nc dial ≠ .result r := by
  have hm : makeWebSocketFuncModel baseUrl meta args nc dial =
      .panicked "runtime error: invalid memory address or nil pointer dereference" := by
    simp [makeWebSocketFuncModel, h]
  exact ⟨hm, fun r hr => by rw [hm] at hr; cases hr⟩

/-- C9 witness: the body and form-field conflict on a streaming stub
ends in the panic outcome, not in a result. -/
theorem claim_C9_ws_discards_build_error_witness :
    makeWebSocketFuncModel "" conflictMeta conflictArgs (fun _ _ => .ok ()) (.ok ()) =
      .panicked "runtime error: invalid memory address or nil pointer dereference" ∧
    ∀ r, makeWebSocketFuncModel "" conflictMeta conflictArgs (fun _ _ => .ok ()) (.ok ()) ≠ .result r :=
  claim_C9_ws_discards_build_error "" conflictMeta conflictArgs (fun _ _ => .ok ()) (.ok ())
    "Body and fields are incompatible." (by decide)

/-- C10: Init silently skips every field that is not a function: such a
field is left unchanged at its position and contributes no error, and
Init still succeeds for the remaining valid stubs, as in
TestNonFunctionField. -/
theorem claim_C10_nonfunction_fields_skipped :
    (∀ (l : List ServiceField) (i : Nat) (n c : String),
      l[i]? = some (.nonFuncField n c) → ((initGo l).1)[i]? = some (.nonFuncField n c)) ∧
    initGo testNonFunctionService = (testNonFunctionServiceBound, none) := by
  constructor
  · intro l
    induction l with
    | nil => intro i n c h; simp at h
    | cons f rest ih =>
      intro i n c h
      cases i with
      | zero =>
        simp only [List.getElem?_cons_zero] at h
        have hf : f = .nonFuncField n c := Option.some_inj.mp h
        subst hf
        simp [initGo, processField]
      | succ j =>
        simp only [List.getElem?_cons_succ] at h
        cases hpf : processField f with
        | error e => simp [initGo, hpf, h]
        | ok f2 =>
          simp only [initGo, hpf]
          simpa using ih j n c h
  · decide

/-- C10 witness: the non-function field Id of the test service is
untouched by Init. -/
theorem claim_C10_nonfunction_fields_skipped_witness :
    ((initGo testNonFunctionService).1)[0]? = some (.nonFuncField "Id" "0") :=
  claim_C10_nonfunction_fields_skipped.1 testNonFunctionService 0 "Id" "0" (by decide)

/-- A record whose remaining fields carry at least two body-role fields
counting an already recorded one makes the Role Extractor fail with the
single-body error. -/
theorem psaAux_error_of_many :
    ∀ (fields : List StructFieldSpec) (acc : StructMeta),
      2 ≤ bodyFeatureCount fields + (if acc.bodyField.isSome then 1 else 0) →
      processStructArgAux acc fields = .error "Only one body per request is supported." := by
  intro fields
  induction fields with
  | nil =>
    intro acc h
    by_cases hb : acc.bodyField.isSome <;> simp [bodyFeatureCount, hb] at h
  | cons f rest ih =>
    intro acc h
    by_cases hk : f.isFuncKind
    · rw [show bodyFeatureCount (f :: rest) = bodyFeatureCount rest by
        simp [bodyFeatureCount, hk]] at h
      simpa [processStructArgAux, hk] using ih acc h
    · by_cases he : f.rc_feature = ""
      · rw [show bodyFeatureCount (f :: rest) = bodyFeatureCount rest by
          simp [bodyFeatureCount, hk, he]] at h
        simpa [processStructArgAux, hk, he] using ih acc h
      · by_cases hp : f.rc_feature = "path"
        · rw [show bodyFeatureCount (f :: rest) = bodyFeatureCount rest by
            simp [bodyFeatureCount, hk, hp]] at h
          simp [processStructArgAux, hk, he, hp]
          exact ih _ h
        · by_cases hf2 : f.rc_feature = "field"
          · rw [show bodyFeatureCount (f :: rest) = bodyFeatureCount rest by
              simp [bodyFeatureCount, hk, hf2]] at h
            simp [processStructArgAux, hk, he, hp, hf2]
            exact ih _ h
          · by_cases hq : f.rc_feature = "query"
            · rw [show bodyFeatureCount (f :: rest) = bodyFeatureCount rest by
                simp [bodyFeatureCount, hk, hq]] at h
              simp [processStructArgAux, hk, he, hp, hf2, hq]
              exact ih _ h
            · by_cases hh2 : f.rc_feature = "header"
              · rw [show bodyFeatureCount (f :: rest) = bodyFeatureCount rest by
                  simp [bodyFeatureCount, hk, hh2]] at h
                simp [processStructArgAux, hk, he, hp, hf2, hq, hh2]
                exact ih _ h
              · by_cases hbody : f.rc_feature = "body"
                · by_cases hacc : acc.bodyField.isSome
                  · simp [processStructArgAux, hk, he, hp, hf2, hq, hh2, hbody, hacc]
                  · have hfalse : acc.bodyField.isSome = false := by
                      simpa using hacc
                    rw [show bodyFeatureCount (f :: rest) = 1 + bodyFeatureCount rest by
                      simp [bodyFeatureCount, hk, hbody]] at h
                    simp only [hfalse, Bool.false_eq_true, if_false] at h
                    simp [processStructArgAux, hk, he, hp, hf2, hq, hh2, hbody, hfalse]
                    apply ih
                    simp only [Option.isSome_some, if_true]
                    omega
                · rw [show bodyFeatureCount (f :: rest) = bodyFeatureCount rest by
                    simp [bodyFeatureCount, hk, hbody]] at h
                  simpa [processStructArgAux, hk, he, hp, hf2, hq, hh2, hbody] using ih acc h

/-- A record whose remaining fields carry at most one body-role field
counting an already recorded one makes the Role Extractor succeed, with
a body field recorded exactly when one was seen. -/
theorem psaAux_ok_of_few :
    ∀ (fields : List StructFieldSpec) (acc : StructMeta),
      bodyFeatureCount fields + (if acc.bodyField.isSome then 1 else 0) ≤ 1 →
      ∃ sm, processStructArgAux acc fields = .ok sm ∧
        (sm.bodyField.isSome = true ↔
          (bodyFeatureCount fields = 1 ∨ acc.bodyField.isSome = true)) := by
  intro fields
  induction fields with
  | nil =>
    intro acc h
    exact ⟨acc, rfl, by simp [bodyFeatureCount]⟩
  | cons f rest ih =>
    intro acc h
    by_cases hk : f.isFuncKind
    · rw [show bodyFeatureCount (f :: rest) = bodyFeatureCount rest by
        simp [bodyFeatureCount, hk]] at h ⊢
      obtain ⟨sm, hok, hiff⟩ := ih acc h
      exact ⟨sm, by simpa [processStructArgAux, hk] using hok, hiff⟩
    · by_cases he : f.rc_feature = ""
      · rw [show bodyFeatureCount (f :: rest) = bodyFeatureCount rest by
          simp [bodyFeatureCount, hk, he]] at h ⊢
        obtain ⟨sm, hok, hiff⟩ := ih acc h
        exact ⟨sm, by simpa [processStructArgAux, hk, he] using hok, hiff⟩
      · by_cases hp : f.rc_feature = "path"
        · rw [show bodyFeatureCount (f :: rest) = bodyFeatureCount rest by
            simp [bodyFeatureCount, hk, hp]] at h ⊢
          simp [processStructArgAux, hk, he, hp]
          exact ih _ h
        · by_cases hf2 : f.rc_feature = "field"
          · rw [show bodyFeatureCount (f :: rest) = bodyFeatureCount rest by
              simp [bodyFeatureCount, hk, hf2]] at h ⊢
            simp [processStructArgAux, hk, he, hp, hf2]
            exact ih _ h
          · by_cases hq : f.rc_feature = "query"
            · rw [show bodyFeatureCount (f :: rest) = bodyFeatureCount rest by
                simp [bodyFeatureCount, hk, hq]] at h ⊢
              simp [processStructArgAux, hk, he, hp, hf2, hq]
              exact ih _ h
            · by_cases hh2 : f.rc_feature = "header"
              · rw [show bodyFeatureCount (f :: rest) = bodyFeatureCount rest by
                  simp [bodyFeatureCount, hk, hh2]] at h ⊢
                simp [processStructArgAux, hk, he, hp, hf2, hq, hh2]
                exact ih _ h
              · by_cases hbody : f.rc_feature = "body"
                · have hcnt : bodyFeatureCount (f :: rest) = 1 + bodyFeatureCount rest := by
                    simp [bodyFeatureCount, hk, hbody]
                  by_cases hacc : acc.bodyField.isSome
                  · exfalso
                    rw [hcnt] at h
                    simp only [hacc, if_true] at h
                    omega
                  · have hfalse : acc.bodyField.isSome = false := by
                      simpa using hacc
                    rw [hcnt] at h
                    simp [hfalse] at h
                    have hrest : bodyFeatureCount rest = 0 := by omega
                    obtain ⟨sm, hok, hiff⟩ := ih { acc with bodyField := some ({ Name := (if f.rc_name = "" then f.name else f.rc_name), OmitEmpty := parseOmitEmpty f.rc_options } : Arg) } (by simp [hrest])
                    refine ⟨sm, ?_, ?_⟩
                    · simpa [processStructArgAux, hk, he, hp, hf2, hq, hh2, hbody, hfalse]
                        using hok
                    · have hsm : sm.bodyField.isSome = true := hiff.mpr (Or.inr (by simp))
                      rw [hsm, hcnt, hrest]
                      simp
                · rw [show bodyFeatureCount (f :: rest) = bodyFeatureCount rest by
                    simp [bodyFeatureCount, hk, hbody]] at h ⊢
                  obtain ⟨sm, hok, hiff⟩ := ih acc h
                  exact ⟨sm, by simpa [processStructArgAux, hk, he, hp, hf2, hq, hh2, hbody]
                    using hok, hiff⟩

/-- A parameter list carrying at least two body-role fields counting an
already seen one makes the Init argument loop fail with the single-body
error. -/
theorem processArgs_error_of_many :
    ∀ (args : List ArgTypeSpec) (hasBody : Bool),
      2 ≤ argsBodyCount args + (if hasBody then 1 else 0) →
      processArgs hasBody args = .error "Only one body per request is supported." := by
  intro args
  induction args with
  | nil =>
    intro hb h
    cases hb <;> simp [argsBodyCount] at h
  | cons a rest ih =>
    intro hb h
    cases a with
    | scalarT =>
      rw [show argsBodyCount (.scalarT :: rest) = argsBodyCount rest by
        simp [argsBodyCount]] at h
      simp [processArgs, Except.map, ih hb h]
    | structT fields =>
      rw [show argsBodyCount (.structT fields :: rest) =
          bodyFeatureCount fields + argsBodyCount rest by simp [argsBodyCount]] at h
      by_cases h2 : 2 ≤ bodyFeatureCount fields
      · have herr : processStructArg fields = .error "Only one body per request is supported." := by
          apply psaAux_error_of_many
          simpa using h2
        simp [processArgs, herr]
      · push_neg at h2
        have hle : bodyFeatureCount fields ≤ 1 := by omega
        obtain ⟨sm, hok, hiff⟩ := psaAux_ok_of_few fields {} (by simpa using hle)
        have hok2 : processStructArg fields = .ok sm := hok
        cases hcnt : bodyFeatureCount fields with
        | zero =>
          have hsm : sm.bodyField.isSome = false := by
            rw [Bool.eq_false_iff]
            intro htrue
            rcases hiff.mp htrue with h1 | h1
            · omega
            · simp at h1
          rw [hcnt] at h
          simp only [Nat.zero_add] at h
          simp [processArgs, Except.map, hok2, hsm, ih hb h]
        | succ n =>
          have hn : n = 0 := by omega
          subst hn
          have hsm : sm.bodyField.isSome = true := hiff.mpr (Or.inl hcnt)
          rw [hcnt] at h
          cases hb with
          | true => simp [processArgs, hok2, hsm]
          | false =>
            have hrest : 2 ≤ argsBodyCount rest + 1 := by simp at h; omega
            simp [processArgs, Except.map, hok2, hsm, ih true (by simpa using hrest)]

/-- C7: a stub with a well-formed signature and verb whose parameters
declare more than one body-role field in total fails compilation with
the single-body error, whether the duplicates sit in one record or in
different parameters; Init returns the error and leaves the field
unbound. -/
theorem claim_C7_multiple_body_fields (typ : FuncType) (tag : FieldTag)
    (slot : Option MethodMeta)
    (h1 : typ.outs.length = 2) (h2 : typ.outs.getD 1 .errorT = .errorT)
    (h3 : inGo tag.rc_method HttpMethods = true)
    (h4 : 2 ≤ argsBodyCount typ.args) :
    initGo [.funcField typ tag slot] =
      ([.funcField typ tag slot], some "Only one body per request is supported.") := by
  have hpa : processArgs false typ.args = .error "Only one body per request is supported." :=
    processArgs_error_of_many typ.args false (by simpa using h4)
  have hpf : processField (.funcField typ tag slot) =
      .error "Only one body per request is supported." := by
    rw [List.getD_eq_getElem?_getD, List.getElem?_eq_getElem (by omega),
        Option.getD_some] at h2
    simp [processField, h1, h2, h3, hpa]
  simp [initGo, hpf]

/-- C7 witness: one record with two body fields, and two records with
one body field each, both fail Init with the single-body error. -/
theorem claim_C7_multiple_body_fields_witness :
    initGo [.funcField twoBodyOneArg { rc_method := "POST" } none] =
      ([.funcField twoBodyOneArg { rc_method := "POST" } none],
       some "Only one body per request is supported.") ∧
    initGo [.funcField twoBodyTwoArgs { rc_method := "POST" } none] =
      ([.funcField twoBodyTwoArgs { rc_method := "POST" } none],
       some "Only one body per request is supported.") :=
  ⟨claim_C7_multiple_body_fields twoBodyOneArg { rc_method := "POST" } none
      (by decide) (by decide) (by decide) (by decide),
   claim_C7_multiple_body_fields twoBodyTwoArgs { rc_method := "POST" } none
      (by decide) (by decide) (by decide) (by decide)⟩

end ReflectClient
